import Mathlib

/-!
Verification development for the cycle-loop repository (a utility that runs an
asynchronous work function periodically with busy-wait timing, keeps running
statistics, and self-corrects its schedule after overruns).

The repository snapshot contains the test suite, the README and an example
program, but the core implementation file (cycle-loop.ts) itself is absent.
The definitions below are therefore modelled from the specification text and
the observable contract fixed by the README and the tests, using the field and
operation names of the public API. Durations are represented as rationals
(exact arithmetic standing in for the floating-point millisecond values), the
outcome of one work invocation is an explicit sum type, and the controller is
a state machine driven by an externally supplied trace of operations.
-/

namespace CycleLoop

/-- Modelled from the spec: the implementation file cycle-loop.ts is absent
from the snapshot; this is the CycleStats record of spec section 3 and the
README, with the field names used by the tests. Duration fields are rationals
standing in for millisecond floating-point values; wkc is the optional
working counter. -/
structure CycleStats where
  cycleCount : Nat
  lastExecutionTimeMs : ℚ
  avgExecutionTimeMs : ℚ
  lastIntervalTimeMs : ℚ
  avgIntervalTimeMs : ℚ
  wkc : Option ℚ
deriving Repr, DecidableEq

/-- Modelled from the spec: zeroed statistics — count zero, all durations
zero, working counter absent (spec sections 3 and 8). -/
def initialStats : CycleStats :=
  { cycleCount := 0
    lastExecutionTimeMs := 0
    avgExecutionTimeMs := 0
    lastIntervalTimeMs := 0
    avgIntervalTimeMs := 0
    wkc := none }

/-- Modelled from the spec: the per-cycle statistics update of section 4.1
step 5 — increment cycleCount, record the last samples, update both running
means by the incremental rule avg_new = avg_old + (sample - avg_old) /
cycleCount (with cycleCount the post-increment count), and overwrite the
working counter with the result of this cycle. -/
def updateStats (s : CycleStats) (execMs intervalMs : ℚ) (res : Option ℚ) :
    CycleStats :=
  { cycleCount := s.cycleCount + 1
    lastExecutionTimeMs := execMs
    avgExecutionTimeMs := s.avgExecutionTimeMs +
      (execMs - s.avgExecutionTimeMs) / ((s.cycleCount + 1 : Nat) : ℚ)
    lastIntervalTimeMs := intervalMs
    avgIntervalTimeMs := s.avgIntervalTimeMs +
      (intervalMs - s.avgIntervalTimeMs) / ((s.cycleCount + 1 : Nat) : ℚ)
    wkc := res }

/-- Modelled from the spec: the drift-correction rule of section 4.1 step 7
and the README — the next target is the previous target plus the period,
unless current time has already passed that naive target (an overrun), in
which case the next target is rebased to now plus the period. -/
def nextTargetTime (targetTime cycleTimeMs now : ℚ) : ℚ :=
  if targetTime + cycleTimeMs < now then now + cycleTimeMs
  else targetTime + cycleTimeMs

/-- Modelled from the spec: the outcome of one invocation of the
caller-supplied cycleFn — success with an optional numeric result, or a
failure carrying an opaque error value. -/
inductive CycleOutcome where
  | ok (res : Option ℚ)
  | fail (err : Nat)
deriving Repr, DecidableEq

/-- Modelled from the spec: the environment-supplied observation of one
cycle — the cycleFn outcome together with the measured execution duration
and inter-cycle interval for that cycle. -/
structure CycleObs where
  outcome : CycleOutcome
  execMs : ℚ
  intervalMs : ℚ
deriving Repr, DecidableEq

/-- Modelled from the spec: the observable state of one controller — the
binary running flag and the statistics it owns — extended with two pieces of
instrumentation used to state the claims: the total number of cycleFn
invocations so far and the list of error values delivered to onError. -/
structure Machine where
  running : Bool
  stats : CycleStats
  invocations : Nat
  errors : List Nat
deriving Repr, DecidableEq

/-- Modelled from the spec: a freshly constructed controller — stopped, with
zeroed statistics, no invocations and no delivered errors. -/
def initialMachine : Machine :=
  { running := false
    stats := initialStats
    invocations := 0
    errors := [] }

/-- Modelled from the spec: the public controller surface reduced to the
events that change or read state. A cycle event is only effective while the
loop is running (cycles happen inside the loop). -/
inductive Op where
  | start
  | stop
  | resetStats
  | cycle (obs : CycleObs)
deriving Repr, DecidableEq

/-- Modelled from the spec: one controller transition. start is the stopped
to running transition, resetting statistics, and a no-op when already running
(section 4.1); stop is the cooperative, idempotent running to stopped
transition and touches no statistics; resetStats zeroes statistics without
touching the running flag; a cycle is effective only while running — on
success it invokes cycleFn and applies the statistics update, on failure it
invokes cycleFn, delivers the error to onError when a handler is registered
(hasOnError) and stops the loop (section 4.1 steps 4 to 6, section 7). -/
def stepOp (hasOnError : Bool) (m : Machine) : Op → Machine
  | .start =>
      if m.running then m
      else { m with running := true, stats := initialStats }
  | .stop => { m with running := false }
  | .resetStats => { m with stats := initialStats }
  | .cycle o =>
      if m.running then
        match o.outcome with
        | .ok res =>
            { m with
              stats := updateStats m.stats o.execMs o.intervalMs res
              invocations := m.invocations + 1 }
        | .fail e =>
            { m with
              running := false
              invocations := m.invocations + 1
              errors := m.errors ++ (if hasOnError then [e] else []) }
      else m

/-- Modelled from the spec: a controller run — the machine after processing a
trace of operations in order. -/
def runOps (hasOnError : Bool) (m : Machine) : List Op → Machine
  | [] => m
  | op :: rest => runOps hasOnError (stepOp hasOnError m op) rest

/-- Modelled from the spec: isRunning of the public API returns the running
flag. -/
def isRunning (m : Machine) : Bool := m.running

/-- Modelled from the spec: getStats of the public API returns the current
statistics value. -/
def getStats (m : Machine) : CycleStats := m.stats

/-- Modelled from the spec: the configuration errors of section 7 — a
non-positive cycle period or a missing work function. -/
inductive ConfigError where
  | nonPositiveCycleTime
  | missingCycleFn
deriving Repr, DecidableEq

/-- Modelled from the spec: construction validates the configuration
(section 7) — a non-positive cycleTimeMs or a missing cycleFn fails fast with
a configuration error before any loop exists; a valid configuration yields a
stopped controller with zeroed statistics. -/
def createCycleLoop (cycleTimeMs : ℚ) (hasCycleFn : Bool) :
    Except ConfigError Machine :=
  if cycleTimeMs ≤ 0 then .error .nonPositiveCycleTime
  else if hasCycleFn then .ok initialMachine
  else .error .missingCycleFn

/-- Modelled from the spec: the statistics reached from a given state after a
run of successful cycles with the given (execMs, intervalMs, result)
samples, each applied by the per-cycle update. -/
def applyCycleSamples (s : CycleStats) :
    List (ℚ × ℚ × Option ℚ) → CycleStats
  | [] => s
  | (ex, iv, r) :: rest => applyCycleSamples (updateStats s ex iv r) rest

/-- Recognizes an operation that is a successful cycle. -/
def isOkCycle : Op → Bool
  | .cycle o =>
      match o.outcome with
      | .ok _ => true
      | .fail _ => false
  | _ => false

lemma runOps_append (h : Bool) (m : Machine) (a b : List Op) :
    runOps h m (a ++ b) = runOps h (runOps h m a) b := by
  induction a generalizing m with
  | nil => rfl
  | cons op rest ih => simp [runOps, ih]

lemma runOps_ok_preserves (h : Bool) (t : List Op) :
    ∀ m : Machine, m.running = true → (∀ o ∈ t, isOkCycle o = true) →
      (runOps h m t).running = true ∧ (runOps h m t).errors = m.errors := by
  induction t with
  | nil => exact fun m hm _ => ⟨hm, rfl⟩
  | cons op rest ih =>
      intro m hm hall
      have hop := hall op (List.mem_cons_self _ _)
      cases op with
      | start => simp [isOkCycle] at hop
      | stop => simp [isOkCycle] at hop
      | resetStats => simp [isOkCycle] at hop
      | cycle o =>
          cases houtcome : o.outcome with
          | fail e => simp [isOkCycle, houtcome] at hop
          | ok r =>
              have hnext : (stepOp h m (Op.cycle o)).running = true ∧
                  (stepOp h m (Op.cycle o)).errors = m.errors := by
                simp [stepOp, hm, houtcome]
              have hrest := ih (stepOp h m (Op.cycle o)) hnext.1
                (fun o2 ho2 => hall o2 (List.mem_cons_of_mem _ ho2))
              simp only [runOps]
              exact ⟨hrest.1, hrest.2.trans hnext.2⟩

lemma runOps_stopped_preserves (h : Bool) (t : List Op) :
    ∀ m : Machine, m.running = false → (∀ o ∈ t, o ≠ Op.start) →
      (runOps h m t).running = false ∧ (runOps h m t).errors = m.errors := by
  induction t with
  | nil => exact fun m hm _ => ⟨hm, rfl⟩
  | cons op rest ih =>
      intro m hm hall
      have hop := hall op (List.mem_cons_self _ _)
      have hnext : (stepOp h m op).running = false ∧
          (stepOp h m op).errors = m.errors := by
        cases op with
        | start => exact absurd rfl hop
        | stop => exact ⟨rfl, rfl⟩
        | resetStats => exact ⟨hm, rfl⟩
        | cycle o => simp [stepOp, hm]
      have hrest := ih (stepOp h m op) hnext.1
        (fun o2 ho2 => hall o2 (List.mem_cons_of_mem _ ho2))
      simp only [runOps]
      exact ⟨hrest.1, hrest.2.trans hnext.2⟩

lemma runOps_stopped_frozen (h : Bool) (t : List Op) :
    ∀ m : Machine, m.running = false →
      (∀ o ∈ t, o ≠ Op.start ∧ o ≠ Op.resetStats) →
      runOps h m t = m := by
  induction t with
  | nil => exact fun m _ _ => rfl
  | cons op rest ih =>
      intro m hm hall
      have hop := hall op (List.mem_cons_self _ _)
      have hstep : stepOp h m op = m := by
        cases op with
        | start => exact absurd rfl hop.1
        | resetStats => exact absurd rfl hop.2
        | stop =>
            cases m with
            | mk r s i e => cases hm; rfl
        | cycle o => simp [stepOp, hm]
      simp only [runOps, hstep]
      exact ih m hm (fun o2 ho2 => hall o2 (List.mem_cons_of_mem _ ho2))

lemma applyCycleSamples_cycleCount (l : List (ℚ × ℚ × Option ℚ)) :
    ∀ s : CycleStats,
      (applyCycleSamples s l).cycleCount = s.cycleCount + l.length := by
  induction l with
  | nil => intro s; simp [applyCycleSamples]
  | cons sample rest ih =>
      intro s
      obtain ⟨ex, iv, r⟩ := sample
      simp only [applyCycleSamples, List.length_cons, ih, updateStats]
      omega

lemma applyCycleSamples_avgExec (l : List (ℚ × ℚ × Option ℚ)) :
    ∀ s : CycleStats,
      (applyCycleSamples s l).avgExecutionTimeMs
          * ((s.cycleCount : ℚ) + l.length)
        = s.avgExecutionTimeMs * s.cycleCount
          + (l.map fun x => x.1).sum := by
  induction l with
  | nil => intro s; simp [applyCycleSamples]
  | cons sample rest ih =>
      intro s
      obtain ⟨ex, iv, r⟩ := sample
      have h2 := ih (updateStats s ex iv r)
      have h0 : ((s.cycleCount : ℚ) + 1) ≠ 0 := by positivity
      have hkey : (s.avgExecutionTimeMs +
            (ex - s.avgExecutionTimeMs) / ((s.cycleCount : ℚ) + 1))
            * ((s.cycleCount : ℚ) + 1)
          = s.avgExecutionTimeMs * s.cycleCount + ex := by
        field_simp
        ring
      have hcount : (updateStats s ex iv r).cycleCount = s.cycleCount + 1 := rfl
      have havg : (updateStats s ex iv r).avgExecutionTimeMs
          = s.avgExecutionTimeMs +
            (ex - s.avgExecutionTimeMs) / ((s.cycleCount + 1 : Nat) : ℚ) := rfl
      rw [hcount, havg] at h2
      push_cast at h2
      simp only [applyCycleSamples, List.length_cons, List.map_cons,
        List.sum_cons]
      push_cast
      linear_combination h2 + hkey

lemma applyCycleSamples_avgInterval (l : List (ℚ × ℚ × Option ℚ)) :
    ∀ s : CycleStats,
      (applyCycleSamples s l).avgIntervalTimeMs
          * ((s.cycleCount : ℚ) + l.length)
        = s.avgIntervalTimeMs * s.cycleCount
          + (l.map fun x => x.2.1).sum := by
  induction l with
  | nil => intro s; simp [applyCycleSamples]
  | cons sample rest ih =>
      intro s
      obtain ⟨ex, iv, r⟩ := sample
      have h2 := ih (updateStats s ex iv r)
      have h0 : ((s.cycleCount : ℚ) + 1) ≠ 0 := by positivity
      have hkey : (s.avgIntervalTimeMs +
            (iv - s.avgIntervalTimeMs) / ((s.cycleCount : ℚ) + 1))
            * ((s.cycleCount : ℚ) + 1)
          = s.avgIntervalTimeMs * s.cycleCount + iv := by
        field_simp
        ring
      have hcount : (updateStats s ex iv r).cycleCount = s.cycleCount + 1 := rfl
      have havg : (updateStats s ex iv r).avgIntervalTimeMs
          = s.avgIntervalTimeMs +
            (iv - s.avgIntervalTimeMs) / ((s.cycleCount + 1 : Nat) : ℚ) := rfl
      rw [hcount, havg] at h2
      push_cast at h2
      simp only [applyCycleSamples, List.length_cons, List.map_cons,
        List.sum_cons]
      push_cast
      linear_combination h2 + hkey

/-- Concrete list of (execution, interval, result) samples used to
instantiate the statistics theorems. -/
def sampleList : List (ℚ × ℚ × Option ℚ) :=
  [(2, 10, none), (4, 20, some 7)]

/-- Concrete controller state used to instantiate the theorems: running, with
three completed cycles recorded and a working counter present. -/
def sampleRunning : Machine :=
  { running := true
    stats :=
      { cycleCount := 3
        lastExecutionTimeMs := 1
        avgExecutionTimeMs := 2
        lastIntervalTimeMs := 4
        avgIntervalTimeMs := 5
        wkc := some 5 }
    invocations := 3
    errors := [] }

/-- C1: in every run in which the work function fails during a cycle, the
loop transitions to stopped (isRunning is false for the rest of the run as
long as start is not called again); with an onError handler registered
exactly that one failure is delivered to it, and with no handler registered
nothing is delivered; the run is a total function of the trace, so the
failure never propagates out of start as a thrown fault. -/
theorem claim1_work_failure_stops_and_reports (hasOnError : Bool) (m : Machine)
    (pre : List Op) (e : Nat) (ex iv : ℚ) (post : List Op)
    (hrun : m.running = true)
    (hpre : ∀ o ∈ pre, isOkCycle o = true)
    (hpost : ∀ o ∈ post, o ≠ Op.start) :
    (runOps hasOnError m
        (pre ++ Op.cycle ⟨CycleOutcome.fail e, ex, iv⟩ :: post)).running = false ∧
    (runOps hasOnError m
        (pre ++ Op.cycle ⟨CycleOutcome.fail e, ex, iv⟩ :: post)).errors
      = m.errors ++ (if hasOnError then [e] else []) := by
  have h1 := runOps_ok_preserves hasOnError pre m hrun hpre
  have hstep :
      (stepOp hasOnError (runOps hasOnError m pre)
        (Op.cycle ⟨CycleOutcome.fail e, ex, iv⟩)).running = false ∧
      (stepOp hasOnError (runOps hasOnError m pre)
        (Op.cycle ⟨CycleOutcome.fail e, ex, iv⟩)).errors
        = (runOps hasOnError m pre).errors ++ (if hasOnError then [e] else []) := by
    simp [stepOp, h1.1]
  have h2 := runOps_stopped_preserves hasOnError post _ hstep.1 hpost
  rw [runOps_append]
  simp only [runOps]
  exact ⟨h2.1, by rw [h2.2, hstep.2, h1.2]⟩

/-- Witness for C1: from a concrete running state, a single failing cycle
with error value 7 leaves the loop stopped and delivers exactly that error. -/
theorem claim1_witness :
    sampleRunning.running = true ∧
    (runOps true sampleRunning
        [Op.cycle ⟨CycleOutcome.fail 7, 1, 2⟩]).running = false ∧
    (runOps true sampleRunning
        [Op.cycle ⟨CycleOutcome.fail 7, 1, 2⟩]).errors
      = sampleRunning.errors ++ [7] :=
  ⟨rfl,
    (claim1_work_failure_stops_and_reports true sampleRunning [] 7 1 2 []
      rfl (by simp) (by simp)).1,
    (claim1_work_failure_stops_and_reports true sampleRunning [] 7 1 2 []
      rfl (by simp) (by simp)).2⟩

/-- C3: the next target time is the previous target plus the period, except
when the cycle overran (current time already past that naive target), in
which case it is rebased to now plus the period; in both cases the next
target is never in the past, so an overrun never causes cascading
back-to-back catch-up cycles. -/
theorem claim3_drift_correction (targetTime cycleTimeMs now : ℚ)
    (hpos : 0 < cycleTimeMs) :
    (¬ targetTime + cycleTimeMs < now →
        nextTargetTime targetTime cycleTimeMs now = targetTime + cycleTimeMs) ∧
    (targetTime + cycleTimeMs < now →
        nextTargetTime targetTime cycleTimeMs now = now + cycleTimeMs) ∧
    now ≤ nextTargetTime targetTime cycleTimeMs now := by
  unfold nextTargetTime
  by_cases h : targetTime + cycleTimeMs < now
  · rw [if_pos h]
    exact ⟨fun hc => absurd h hc, fun _ => rfl, by linarith⟩
  · rw [if_neg h]
    exact ⟨fun _ => rfl, fun hc => absurd hc h, by linarith [not_lt.mp h]⟩

/-- Witness for C3: with period 10, previous target 0 and current time 25
(an overrun), the next target is rebased to 35 and is not in the past. -/
theorem claim3_witness :
    (0 : ℚ) < 10 ∧
    (¬ (0 : ℚ) + 10 < 25 → nextTargetTime 0 10 25 = 0 + 10) ∧
    ((0 : ℚ) + 10 < 25 → nextTargetTime 0 10 25 = 25 + 10) ∧
    (25 : ℚ) ≤ nextTargetTime 0 10 25 :=
  ⟨by norm_num, claim3_drift_correction 0 10 25 (by norm_num)⟩

/-- C4: calling start while the controller is already running is a no-op, a
double start is indistinguishable from a single start, and hence any
subsequent trace (in particular the work-function invocation count it
produces) is unchanged by the duplicated start. -/
theorem claim4_start_is_noop_when_running (hasOnError : Bool) (m : Machine)
    (t : List Op) :
    (m.running = true → stepOp hasOnError m Op.start = m) ∧
    stepOp hasOnError (stepOp hasOnError m Op.start) Op.start
      = stepOp hasOnError m Op.start ∧
    (runOps hasOnError
        (stepOp hasOnError (stepOp hasOnError m Op.start) Op.start) t).invocations
      = (runOps hasOnError (stepOp hasOnError m Op.start) t).invocations := by
  have h2 : stepOp hasOnError (stepOp hasOnError m Op.start) Op.start
      = stepOp hasOnError m Op.start := by
    cases hr : m.running <;> simp [stepOp, hr]
  exact ⟨fun h => by simp [stepOp, h], h2, by rw [h2]⟩

/-- Witness for C4: a doubled start on a concrete running machine equals a
single start and produces the same invocation count over a further trace. -/
theorem claim4_witness :
    (sampleRunning.running = true →
      stepOp true sampleRunning Op.start = sampleRunning) ∧
    stepOp true (stepOp true sampleRunning Op.start) Op.start
      = stepOp true sampleRunning Op.start ∧
    (runOps true (stepOp true (stepOp true sampleRunning Op.start) Op.start)
        [Op.cycle ⟨CycleOutcome.ok (some 1), 1, 1⟩]).invocations
      = (runOps true (stepOp true sampleRunning Op.start)
        [Op.cycle ⟨CycleOutcome.ok (some 1), 1, 1⟩]).invocations :=
  claim4_start_is_noop_when_running true sampleRunning
    [Op.cycle ⟨CycleOutcome.ok (some 1), 1, 1⟩]

/-- C5: the stopped-to-running start transition and resetStats both set the
statistics to the zeroed record (count zero, all four duration fields zero,
working counter absent), and resetStats leaves the running flag unchanged
whatever its value. -/
theorem claim5_start_and_resetStats_zero_stats (hasOnError : Bool)
    (m : Machine) :
    (m.running = false → (stepOp hasOnError m Op.start).stats = initialStats) ∧
    (stepOp hasOnError m Op.resetStats).stats = initialStats ∧
    (stepOp hasOnError m Op.resetStats).running = m.running ∧
    initialStats.cycleCount = 0 ∧
    initialStats.lastExecutionTimeMs = 0 ∧
    initialStats.avgExecutionTimeMs = 0 ∧
    initialStats.lastIntervalTimeMs = 0 ∧
    initialStats.avgIntervalTimeMs = 0 ∧
    initialStats.wkc = none :=
  ⟨fun h => by simp [stepOp, h], rfl, rfl, rfl, rfl, rfl, rfl, rfl, rfl⟩

/-- Witness for C5: instantiation at the freshly constructed (stopped)
machine. -/
theorem claim5_witness :
    (initialMachine.running = false →
      (stepOp true initialMachine Op.start).stats = initialStats) ∧
    (stepOp true initialMachine Op.resetStats).stats = initialStats ∧
    (stepOp true initialMachine Op.resetStats).running = initialMachine.running ∧
    initialStats.cycleCount = 0 ∧
    initialStats.lastExecutionTimeMs = 0 ∧
    initialStats.avgExecutionTimeMs = 0 ∧
    initialStats.lastIntervalTimeMs = 0 ∧
    initialStats.avgIntervalTimeMs = 0 ∧
    initialStats.wkc = none :=
  claim5_start_and_resetStats_zero_stats true initialMachine

/-- C6: after a successful cycle the working counter equals exactly the
result returned by the work function for that cycle — a numeric result N
gives wkc = N, an empty result gives an absent wkc — regardless of any
previously stored value (overwritten, never accumulated). -/
theorem claim6_wkc_reflects_latest_result (hasOnError : Bool) (m : Machine)
    (r : Option ℚ) (ex iv : ℚ) (hrun : m.running = true) :
    (stepOp hasOnError m (Op.cycle ⟨CycleOutcome.ok r, ex, iv⟩)).stats.wkc = r := by
  simp [stepOp, hrun, updateStats]

/-- Witness for C6: on a machine whose stored working counter is 5, a cycle
returning nothing makes wkc absent, and a cycle returning 42 makes it 42. -/
theorem claim6_witness :
    sampleRunning.running = true ∧
    (stepOp true sampleRunning
        (Op.cycle ⟨CycleOutcome.ok none, 1, 2⟩)).stats.wkc = none ∧
    (stepOp true sampleRunning
        (Op.cycle ⟨CycleOutcome.ok (some 42), 1, 2⟩)).stats.wkc = some 42 :=
  ⟨rfl,
    claim6_wkc_reflects_latest_result true sampleRunning none 1 2 rfl,
    claim6_wkc_reflects_latest_result true sampleRunning (some 42) 1 2 rfl⟩

/-- C7: a configuration with a non-positive cycle period or a missing work
function fails fast at construction with a configuration error: no
controller is produced, so no loop is entered and the work function is
never invoked. -/
theorem claim7_config_error_fails_fast (cycleTimeMs : ℚ) (hasCycleFn : Bool)
    (hbad : cycleTimeMs ≤ 0 ∨ hasCycleFn = false) :
    (∃ e, createCycleLoop cycleTimeMs hasCycleFn = Except.error e) ∧
    ∀ m, createCycleLoop cycleTimeMs hasCycleFn ≠ Except.ok m := by
  have h : ∃ e, createCycleLoop cycleTimeMs hasCycleFn = Except.error e := by
    unfold createCycleLoop
    rcases hbad with hle | hfn
    · exact ⟨ConfigError.nonPositiveCycleTime, by rw [if_pos hle]⟩
    · by_cases hle : cycleTimeMs ≤ 0
      · exact ⟨ConfigError.nonPositiveCycleTime, by rw [if_pos hle]⟩
      · refine ⟨ConfigError.missingCycleFn, ?_⟩
        rw [if_neg hle, hfn]
        rfl
  obtain ⟨e, he⟩ := h
  refine ⟨⟨e, he⟩, fun m hm => ?_⟩
  rw [he] at hm
  exact Except.noConfusion hm

/-- Witness for C7: a zero period and a missing work function each make
construction fail, yielding no controller. -/
theorem claim7_witness :
    createCycleLoop 0 true ≠ Except.ok initialMachine ∧
    createCycleLoop 5 false ≠ Except.ok initialMachine :=
  ⟨(claim7_config_error_fails_fast 0 true (Or.inl (by norm_num))).2
      initialMachine,
    (claim7_config_error_fails_fast 5 false (Or.inr rfl)).2 initialMachine⟩

/-- C9: a freshly constructed controller with a valid configuration is
stopped, with cycle count zero, all four duration statistics zero, and the
working counter absent. -/
theorem claim9_fresh_controller_initial_state (cycleTimeMs : ℚ)
    (hpos : 0 < cycleTimeMs) :
    createCycleLoop cycleTimeMs true = Except.ok initialMachine ∧
    isRunning initialMachine = false ∧
    (getStats initialMachine).cycleCount = 0 ∧
    (getStats initialMachine).lastExecutionTimeMs = 0 ∧
    (getStats initialMachine).avgExecutionTimeMs = 0 ∧
    (getStats initialMachine).lastIntervalTimeMs = 0 ∧
    (getStats initialMachine).avgIntervalTimeMs = 0 ∧
    (getStats initialMachine).wkc = none := by
  refine ⟨?_, rfl, rfl, rfl, rfl, rfl, rfl, rfl⟩
  unfold createCycleLoop
  rw [if_neg (not_le.mpr hpos)]
  rfl

/-- Witness for C9: construction with period 5 succeeds and the fresh
controller has the zeroed observable state. -/
theorem claim9_witness :
    (0 : ℚ) < 5 ∧
    (createCycleLoop 5 true = Except.ok initialMachine ∧
     isRunning initialMachine = false ∧
     (getStats initialMachine).cycleCount = 0 ∧
     (getStats initialMachine).lastExecutionTimeMs = 0 ∧
     (getStats initialMachine).avgExecutionTimeMs = 0 ∧
     (getStats initialMachine).lastIntervalTimeMs = 0 ∧
     (getStats initialMachine).avgIntervalTimeMs = 0 ∧
     (getStats initialMachine).wkc = none) :=
  ⟨by norm_num, claim9_fresh_controller_initial_state 5 (by norm_num)⟩

/-- C10: stop does not modify any statistics, and after the loop has stopped
the statistics persist unchanged over every further trace that contains no
start and no resetStats (cycles are ineffective while stopped), while the
controller stays stopped. -/
theorem claim10_stop_preserves_stats (hasOnError : Bool) (m : Machine)
    (t : List Op) (ht : ∀ o ∈ t, o ≠ Op.start ∧ o ≠ Op.resetStats) :
    (stepOp hasOnError m Op.stop).stats = m.stats ∧
    getStats (runOps hasOnError (stepOp hasOnError m Op.stop) t) = getStats m ∧
    (runOps hasOnError (stepOp hasOnError m Op.stop) t).running = false := by
  have hfrozen := runOps_stopped_frozen hasOnError t
    { m with running := false } rfl ht
  have hs : stepOp hasOnError m Op.stop = { m with running := false } := rfl
  rw [hs, hfrozen]
  exact ⟨rfl, rfl, rfl⟩

/-- Witness for C10: stopping a concrete running machine keeps its
statistics, and they survive a further trace of a cycle event and another
stop. -/
theorem claim10_witness :
    (stepOp true sampleRunning Op.stop).stats = sampleRunning.stats ∧
    getStats (runOps true (stepOp true sampleRunning Op.stop)
        [Op.cycle ⟨CycleOutcome.ok (some 1), 1, 1⟩, Op.stop])
      = getStats sampleRunning ∧
    (runOps true (stepOp true sampleRunning Op.stop)
        [Op.cycle ⟨CycleOutcome.ok (some 1), 1, 1⟩, Op.stop]).running = false :=
  claim10_stop_preserves_stats true sampleRunning
    [Op.cycle ⟨CycleOutcome.ok (some 1), 1, 1⟩, Op.stop] (by decide)

/-- C2: every completed cycle increments cycleCount by exactly one, and the
incremental running-mean update makes avgExecutionTimeMs after N recorded
cycles equal the arithmetic mean of the N execution samples (and likewise
avgIntervalTimeMs the mean of the interval samples), exactly in rational
arithmetic. -/
theorem claim2_running_mean_correct (s : CycleStats) (ex iv : ℚ)
    (r : Option ℚ) (l : List (ℚ × ℚ × Option ℚ)) (hne : l ≠ []) :
    (updateStats s ex iv r).cycleCount = s.cycleCount + 1 ∧
    (applyCycleSamples initialStats l).cycleCount = l.length ∧
    (applyCycleSamples initialStats l).avgExecutionTimeMs
      = (l.map fun x => x.1).sum / (l.length : ℚ) ∧
    (applyCycleSamples initialStats l).avgIntervalTimeMs
      = (l.map fun x => x.2.1).sum / (l.length : ℚ) := by
  have hlen : ((l.length : ℚ)) ≠ 0 := by
    have hzero : l.length ≠ 0 := by
      simpa [List.length_eq_zero] using hne
    exact_mod_cast hzero
  have hc := applyCycleSamples_cycleCount l initialStats
  have he := applyCycleSamples_avgExec l initialStats
  have hi := applyCycleSamples_avgInterval l initialStats
  simp only [initialStats] at hc he hi
  refine ⟨rfl, by simpa using hc, ?_, ?_⟩
  · rw [eq_div_iff hlen]
    simpa using he
  · rw [eq_div_iff hlen]
    simpa using hi

/-- Witness for C2: over the two concrete samples (exec 2, interval 10) and
(exec 4, interval 20) the count is 2 and the averages are the means 3 and
15. -/
theorem claim2_witness :
    sampleList ≠ [] ∧
    ((updateStats initialStats 1 1 none).cycleCount
        = initialStats.cycleCount + 1 ∧
     (applyCycleSamples initialStats sampleList).cycleCount
        = sampleList.length ∧
     (applyCycleSamples initialStats sampleList).avgExecutionTimeMs
        = (sampleList.map fun x => x.1).sum / (sampleList.length : ℚ) ∧
     (applyCycleSamples initialStats sampleList).avgIntervalTimeMs
        = (sampleList.map fun x => x.2.1).sum / (sampleList.length : ℚ)) :=
  ⟨by decide,
    claim2_running_mean_correct initialStats 1 1 none sampleList (by decide)⟩

end CycleLoop
